import Mathlib

/-!
# Movix — verification of the stream-resolution and playback core

A shallow embedding of the Rust sources of the Movix media client
(`src/streaming/resolvers/voe.rs`, `src/streaming/providers/filmpalastto.rs`,
`src/streaming/mod.rs`, `src/movie_player.rs`, `src/video.rs`) together with
proofs about the embedded definitions.

Modelling conventions:
* A Rust `String` / `&str` is modelled as a `List Nat` of Unicode scalar
  values (`Str`), matching Rust's `char` iteration.  Byte buffers
  (`Vec<u8>`) are `List Nat` of byte values.
* Fallible Rust operations (`Option`, `Result`) become `Option` / `Except`.
* `serde_json` parsing is embedded as a recursive-descent JSON parser over
  scalar values.  JSON numbers are kept as their lexeme (the claims under
  study never inspect numeric values; serde's rejection of numbers that do
  not fit an `f64` is not modelled).
* `str::to_lowercase` is modelled by its ASCII case mapping (every string it
  is applied to in the claims is ASCII).
* Async functions are modelled as pure functions returning their results;
  per-call network effects are abstracted as function-valued parameters.
-/

/-- A Rust string, as its sequence of Unicode scalar values. -/
abbrev Str := List Nat

/-- Embed a Lean string literal as a `Str`. -/
def strLit (s : String) : Str := s.data.map Char.toNat

/-! ## VoeResolver: the obfuscation codec (src/streaming/resolvers/voe.rs)

`rot13`, `strip_markers`, `shift_chars`, `safe_b64_decode`, `deobfuscate`,
`is_bait`, `extract_stream_url`, `resolve_redirect_url`. -/

/-- One character of `VoeResolver::rot13`: the 13-position rotation applied to
ASCII letters (code 65–90 upper, 97–122 lower), other characters unchanged.
`char::from_u32(..).unwrap_or(c)` never takes the fallback because the result
stays inside the letter ranges. -/
def rot13c (c : Nat) : Nat :=
  if 65 ≤ c ∧ c ≤ 90 then (c - 65 + 13) % 26 + 65
  else if 97 ≤ c ∧ c ≤ 122 then (c - 97 + 13) % 26 + 97
  else c

/-- Model of `VoeResolver::rot13`. -/
def rot13 (text : Str) : Str := text.map rot13c

/-- One pass of Rust `str::replace(m, "")` for a two-character pattern `a b`:
remove all non-overlapping occurrences, scanning left to right. -/
def remove2 (a b : Nat) : Str → Str
  | [] => []
  | [c] => [c]
  | c :: d :: rest =>
    if c = a ∧ d = b then remove2 a b rest else c :: remove2 a b (d :: rest)

/-- The `MARKERS` constant, as pairs of scalar values:
`"@#", "^^", "~@", "%?", "*~", "!!", "#&"`. -/
def markers_list : List (Nat × Nat) :=
  [(64, 35), (94, 94), (126, 64), (37, 63), (42, 126), (33, 33), (35, 38)]

/-- Model of `VoeResolver::strip_markers`: fold `replace(m, "")` over `MARKERS` in
order. -/
def strip_markers (text : Str) : Str :=
  markers_list.foldl (fun acc m => remove2 m.1 m.2 acc) text

/-- Rust `char::from_u32`: `some n` iff `n` is a Unicode scalar value
(not a surrogate, at most 0x10FFFF). -/
def char_from_u32 (n : Nat) : Option Nat :=
  if n < 0xD800 ∨ (0xE000 ≤ n ∧ n ≤ 0x10FFFF) then some n else none

/-- Model of `VoeResolver::shift_chars` for a non-negative offset (the only call site
uses `3`): subtract `offset` from each scalar; keep the original character if
the result would be negative; `filter_map` drops the character when
`char::from_u32` rejects the shifted value (surrogate range). -/
def shift_chars (text : Str) (offset : Nat) : Str :=
  text.filterMap (fun c => if offset ≤ c then char_from_u32 (c - offset) else some c)

/-- The character filter inside `safe_b64_decode`:
`is_ascii_alphanumeric || '+' || '/' || '='`. -/
def b64_keep (c : Nat) : Bool :=
  (48 ≤ c ∧ c ≤ 57) ∨ (65 ≤ c ∧ c ≤ 90) ∨ (97 ≤ c ∧ c ≤ 122) ∨ c = 43 ∨ c = 47 ∨ c = 61

/-- Model of `safe_b64_decode`, cleaning step. -/
def b64_clean (s : Str) : Str := s.filter b64_keep

/-- Model of `safe_b64_decode`, re-padding step: pad with `'='` to a multiple of 4. -/
def b64_pad (s : Str) : Str :=
  if s.length % 4 = 0 then s else s ++ List.replicate (4 - s.length % 4) 61

/-- Value of a base64 alphabet character (standard alphabet), `none` for
anything else (including `'='`). -/
def b64val (c : Nat) : Option Nat :=
  if 65 ≤ c ∧ c ≤ 90 then some (c - 65)
  else if 97 ≤ c ∧ c ≤ 122 then some (c - 71)
  else if 48 ≤ c ∧ c ≤ 57 then some (c + 4)
  else if c = 43 then some 62
  else if c = 47 then some 63
  else none

/-- Decode base64 quantums of four characters.  Mirrors the `base64` crate's
`STANDARD` engine: canonical padding required (`'='` only in the final
quantum, in the last one or two positions) and non-zero trailing bits
rejected (`decode_allow_trailing_bits = false`). -/
def b64chunks : Str → Option (List Nat)
  | [] => some []
  | a :: b :: c :: d :: rest =>
    match b64val a, b64val b with
    | some va, some vb =>
      if c = 61 then
        if d = 61 ∧ rest = [] ∧ vb % 16 = 0 then some [va * 4 + vb / 16] else none
      else
        match b64val c with
        | some vc =>
          if d = 61 then
            if rest = [] ∧ vc % 4 = 0 then
              some [va * 4 + vb / 16, vb % 16 * 16 + vc / 4]
            else none
          else
            match b64val d with
            | some vd =>
              (b64chunks rest).map
                (fun bs => (va * 4 + vb / 16) :: (vb % 16 * 16 + vc / 4) :: (vc % 4 * 64 + vd) :: bs)
            | none => none
        | none => none
    | _, _ => none
  | _ => none

/-- Model of `base64::engine::general_purpose::STANDARD.decode`: input length must be a
multiple of four (canonical padding), then decode quantums. -/
def b64decode (s : Str) : Option (List Nat) :=
  if s.length % 4 = 0 then b64chunks s else none

/-- Is `b` a UTF-8 continuation byte (`0x80..=0xBF`)? -/
def utf8_cont (b : Nat) : Bool := 128 ≤ b ∧ b ≤ 191

/-- Allowed range of the second byte of a multi-byte UTF-8 sequence with lead
byte `b` (the restricted ranges of Rust's `core::str` validation). -/
def utf8_snd_range (b : Nat) : Nat × Nat :=
  if b = 0xE0 then (0xA0, 0xBF)
  else if b = 0xED then (0x80, 0x9F)
  else if b = 0xF0 then (0x90, 0xBF)
  else if b = 0xF4 then (0x80, 0x8F)
  else (0x80, 0xBF)

/-- Model of `String::from_utf8_lossy`, following Rust's validation: each maximal
invalid prefix (`Utf8Error::error_len`) is replaced by one U+FFFD, an
incomplete sequence at the end of input by one U+FFFD. -/
def utf8_lossy_aux : Nat → List Nat → Str
  | 0, _ => []
  | _, [] => []
  | fuel + 1, b :: rest =>
    if b ≤ 0x7F then b :: utf8_lossy_aux fuel rest
    else if 0xC2 ≤ b ∧ b ≤ 0xDF then
      match rest with
      | [] => [0xFFFD]
      | b2 :: rest2 =>
        if utf8_cont b2 then ((b - 0xC0) * 64 + (b2 - 0x80)) :: utf8_lossy_aux fuel rest2
        else 0xFFFD :: utf8_lossy_aux fuel rest
    else if 0xE0 ≤ b ∧ b ≤ 0xEF then
      match rest with
      | [] => [0xFFFD]
      | b2 :: rest2 =>
        if (utf8_snd_range b).1 ≤ b2 ∧ b2 ≤ (utf8_snd_range b).2 then
          match rest2 with
          | [] => [0xFFFD]
          | b3 :: rest3 =>
            if utf8_cont b3 then
              ((b - 0xE0) * 4096 + (b2 - 0x80) * 64 + (b3 - 0x80)) :: utf8_lossy_aux fuel rest3
            else 0xFFFD :: utf8_lossy_aux fuel rest2
        else 0xFFFD :: utf8_lossy_aux fuel rest
    else if 0xF0 ≤ b ∧ b ≤ 0xF4 then
      match rest with
      | [] => [0xFFFD]
      | b2 :: rest2 =>
        if (utf8_snd_range b).1 ≤ b2 ∧ b2 ≤ (utf8_snd_range b).2 then
          match rest2 with
          | [] => [0xFFFD]
          | b3 :: rest3 =>
            if utf8_cont b3 then
              match rest3 with
              | [] => [0xFFFD]
              | b4 :: rest4 =>
                if utf8_cont b4 then
                  ((b - 0xF0) * 262144 + (b2 - 0x80) * 4096 + (b3 - 0x80) * 64 + (b4 - 0x80)) ::
                    utf8_lossy_aux fuel rest4
                else 0xFFFD :: utf8_lossy_aux fuel rest3
            else 0xFFFD :: utf8_lossy_aux fuel rest2
        else 0xFFFD :: utf8_lossy_aux fuel rest
    else 0xFFFD :: utf8_lossy_aux fuel rest

/-- Model of `String::from_utf8_lossy` on a byte list. -/
def utf8_lossy (bs : List Nat) : Str := utf8_lossy_aux bs.length bs

/-- Is a byte list valid UTF-8 (Rust `core::str::from_utf8` succeeds)? -/
def valid_utf8 : List Nat → Bool
  | [] => true
  | b :: rest =>
    if b ≤ 0x7F then valid_utf8 rest
    else if 0xC2 ≤ b ∧ b ≤ 0xDF then
      match rest with
      | b2 :: rest2 => utf8_cont b2 && valid_utf8 rest2
      | [] => false
    else if 0xE0 ≤ b ∧ b ≤ 0xEF then
      match rest with
      | b2 :: b3 :: rest3 =>
        ((utf8_snd_range b).1 ≤ b2 ∧ b2 ≤ (utf8_snd_range b).2 : Bool) && utf8_cont b3 &&
          valid_utf8 rest3
      | _ => false
    else if 0xF0 ≤ b ∧ b ≤ 0xF4 then
      match rest with
      | b2 :: b3 :: b4 :: rest4 =>
        ((utf8_snd_range b).1 ≤ b2 ∧ b2 ≤ (utf8_snd_range b).2 : Bool) && utf8_cont b3 &&
          utf8_cont b4 && valid_utf8 rest4
      | _ => false
    else false

/-- The byte-producing part of `safe_b64_decode`: clean, re-pad, base64
decode (`STANDARD.decode(&padded).ok()?`). -/
def safe_b64_bytes (encoded : Str) : Option (List Nat) :=
  b64decode (b64_pad (b64_clean encoded))

/-- Model of `VoeResolver::safe_b64_decode`: the decoded bytes are converted with
`String::from_utf8_lossy` (which never fails) — so the only failure is the
base64 decode itself. -/
def safe_b64_decode (encoded : Str) : Option Str :=
  (safe_b64_bytes encoded).map utf8_lossy

/-! ## serde_json (the subset used: `from_str::<Value>` / `from_str::<Vec<String>>`) -/

/-- A `serde_json::Value`.  Objects keep their members in source order;
lookups take the last binding of a key, matching the map's
insert-overwrites-on-duplicate behaviour.  Numbers are kept as lexemes. -/
inductive JVal where
  | null
  | bool (b : Bool)
  | num (lexeme : Str)
  | str (s : Str)
  | arr (elems : List JVal)
  | obj (fields : List (Str × JVal))

/-- JSON whitespace accepted by serde_json: space, tab, newline, carriage
return. -/
def json_ws (c : Nat) : Bool := c = 32 ∨ c = 9 ∨ c = 10 ∨ c = 13

def skip_ws (s : Str) : Str := s.dropWhile json_ws

/-- Value of an ASCII hex digit. -/
def hex_val (c : Nat) : Option Nat :=
  if 48 ≤ c ∧ c ≤ 57 then some (c - 48)
  else if 65 ≤ c ∧ c ≤ 70 then some (c - 55)
  else if 97 ≤ c ∧ c ≤ 102 then some (c - 87)
  else none

/-- Parse exactly four hex digits. -/
def parse_hex4 : Str → Option (Nat × Str)
  | a :: b :: c :: d :: rest =>
    match hex_val a, hex_val b, hex_val c, hex_val d with
    | some x, some y, some z, some w => some (x * 4096 + y * 256 + z * 16 + w, rest)
    | _, _, _, _ => none
  | _ => none

/-- Parse the body of a JSON string after the opening quote, with serde's
escape handling: the short escapes, `\uXXXX` with mandatory surrogate
pairing (a lone surrogate is an error), and unescaped control characters
rejected. -/
def parse_string_body : Nat → Str → Str → Option (Str × Str)
  | 0, _, _ => none
  | fuel + 1, acc, s =>
    match s with
    | [] => none
    | c :: rest =>
      if c = 34 then some (acc, rest)
      else if c = 92 then
        match rest with
        | [] => none
        | e :: rest2 =>
          if e = 34 then parse_string_body fuel (acc ++ [34]) rest2
          else if e = 92 then parse_string_body fuel (acc ++ [92]) rest2
          else if e = 47 then parse_string_body fuel (acc ++ [47]) rest2
          else if e = 98 then parse_string_body fuel (acc ++ [8]) rest2
          else if e = 102 then parse_string_body fuel (acc ++ [12]) rest2
          else if e = 110 then parse_string_body fuel (acc ++ [10]) rest2
          else if e = 114 then parse_string_body fuel (acc ++ [13]) rest2
          else if e = 116 then parse_string_body fuel (acc ++ [9]) rest2
          else if e = 117 then
            match parse_hex4 rest2 with
            | none => none
            | some (n, rest3) =>
              if 0xD800 ≤ n ∧ n ≤ 0xDBFF then
                match rest3 with
                | 92 :: 117 :: rest4 =>
                  match parse_hex4 rest4 with
                  | some (m, rest5) =>
                    if 0xDC00 ≤ m ∧ m ≤ 0xDFFF then
                      parse_string_body fuel
                        (acc ++ [0x10000 + (n - 0xD800) * 1024 + (m - 0xDC00)]) rest5
                    else none
                  | none => none
                | _ => none
              else if 0xDC00 ≤ n ∧ n ≤ 0xDFFF then none
              else parse_string_body fuel (acc ++ [n]) rest3
          else none
      else if c < 32 then none
      else parse_string_body fuel (acc ++ [c]) rest

def is_digit (c : Nat) : Bool := 48 ≤ c ∧ c ≤ 57

/-- Optional fractional part of a JSON number; a decimal point not followed
by a digit is a hard error. -/
def parse_frac (lex : Str) (s : Str) : Option (Str × Str) :=
  match s with
  | 46 :: rest =>
    let ds := rest.takeWhile is_digit
    if ds = [] then none else some (lex ++ (46 :: ds), rest.dropWhile is_digit)
  | _ => some (lex, s)

/-- Optional exponent of a JSON number; `e`/`E` not followed by digits is a
hard error. -/
def parse_exp (lex : Str) (s : Str) : Option (Str × Str) :=
  match s with
  | e :: rest =>
    if e = 101 ∨ e = 69 then
      let (sgn, rest2) := match rest with
        | 43 :: r => (([43] : Str), r)
        | 45 :: r => (([45] : Str), r)
        | _ => (([] : Str), rest)
      let ds := rest2.takeWhile is_digit
      if ds = [] then none else some (lex ++ (e :: (sgn ++ ds)), rest2.dropWhile is_digit)
    else some (lex, s)
  | [] => some (lex, s)

/-- Parse a JSON number per RFC 8259 grammar, returning its lexeme.  A
leading zero is not followed by further integer digits (serde stops there
too); serde does not backtrack out of a malformed fraction/exponent. -/
def parse_number (s : Str) : Option (Str × Str) :=
  let (neg, s1) := match s with
    | 45 :: rest => (([45] : Str), rest)
    | _ => (([] : Str), s)
  match s1 with
  | [] => none
  | c :: rest =>
    if c = 48 then
      match parse_frac (neg ++ [48]) rest with
      | some (lex1, s2) => parse_exp lex1 s2
      | none => none
    else if is_digit c then
      match parse_frac (neg ++ (c :: rest.takeWhile is_digit)) (rest.dropWhile is_digit) with
      | some (lex1, s2) => parse_exp lex1 s2
      | none => none
    else none

mutual

/-- Parse one JSON value (serde's grammar), fuel-indexed.  The fuel only
bounds recursion depth; `json_from_str` supplies more than any input can
consume. -/
def parse_value : Nat → Str → Option (JVal × Str)
  | 0, _ => none
  | fuel + 1, s =>
    match s with
    | [] => none
    | c :: rest =>
      if c = 110 then
        match rest with
        | 117 :: 108 :: 108 :: r => some (.null, r)
        | _ => none
      else if c = 116 then
        match rest with
        | 114 :: 117 :: 101 :: r => some (.bool true, r)
        | _ => none
      else if c = 102 then
        match rest with
        | 97 :: 108 :: 115 :: 101 :: r => some (.bool false, r)
        | _ => none
      else if c = 34 then
        match parse_string_body (rest.length + 1) [] rest with
        | some (content, r) => some (.str content, r)
        | none => none
      else if c = 91 then
        match skip_ws rest with
        | 93 :: r => some (.arr [], r)
        | r => parse_elems fuel r []
      else if c = 123 then
        match skip_ws rest with
        | 125 :: r => some (.obj [], r)
        | r => parse_members fuel r []
      else if c = 45 ∨ is_digit c then
        match parse_number s with
        | some (lex, r) => some (.num lex, r)
        | none => none
      else none

/-- Parse the remaining elements of a non-empty JSON array (after `[` and
leading whitespace). -/
def parse_elems : Nat → Str → List JVal → Option (JVal × Str)
  | 0, _, _ => none
  | fuel + 1, s, acc =>
    match parse_value fuel s with
    | none => none
    | some (v, r) =>
      match skip_ws r with
      | 44 :: r2 => parse_elems fuel (skip_ws r2) (acc ++ [v])
      | 93 :: r2 => some (.arr (acc ++ [v]), r2)
      | _ => none

/-- Parse the remaining members of a non-empty JSON object (after `{` and
leading whitespace). -/
def parse_members : Nat → Str → List (Str × JVal) → Option (JVal × Str)
  | 0, _, _ => none
  | fuel + 1, s, acc =>
    match s with
    | 34 :: rest =>
      match parse_string_body (rest.length + 1) [] rest with
      | none => none
      | some (key, r) =>
        match skip_ws r with
        | 58 :: r2 =>
          match parse_value fuel (skip_ws r2) with
          | none => none
          | some (v, r3) =>
            match skip_ws r3 with
            | 44 :: r4 =>
              match skip_ws r4 with
              | 34 :: _ => parse_members fuel (skip_ws r4) (acc ++ [(key, v)])
              | _ => none
            | 125 :: r4 => some (.obj (acc ++ [(key, v)]), r4)
            | _ => none
        | _ => none
    | _ => none

end

/-- Model of `serde_json::from_str::<Value>`: skip leading whitespace, parse one
value, require only whitespace to remain. -/
def json_from_str (s : Str) : Option JVal :=
  match parse_value (2 * s.length + 8) (skip_ws s) with
  | some (v, r) => if skip_ws r = [] then some v else none
  | none => none

/-- Collect the elements of a JSON array when every one is a string
(`serde_json::from_str::<Vec<String>>`'s element check). -/
def all_strings : List JVal → Option (List Str)
  | [] => some []
  | .str s :: rest => (all_strings rest).map (fun ss => s :: ss)
  | _ => none

/-- Model of `serde_json::from_str::<Vec<String>>`: a JSON array whose elements are
all strings. -/
def parse_string_array (s : Str) : Option (List Str) :=
  match json_from_str s with
  | some (.arr vs) => all_strings vs
  | _ => none

/-- Model of `VoeResolver::deobfuscate`: the six-step chain.  Each `←` is a `?`
propagation point in the source. -/
def deobfuscate (raw_json : Str) : Option JVal := do
  let array ← parse_string_array raw_json
  let obfuscated ← array.head?
  let step1 := rot13 obfuscated
  let step2 := strip_markers step1
  let step3 ← safe_b64_decode step2
  let step4 := shift_chars step3 3
  let step5 := step4.reverse
  let step6 ← safe_b64_decode step5
  json_from_str step6

/-! ## VoeResolver: candidate scanning and URL helpers -/

/-- Rust `str::to_lowercase`, restricted to its ASCII case mapping (the
strings it is applied to in this development are ASCII). -/
def ascii_lower (c : Nat) : Nat := if 65 ≤ c ∧ c ≤ 90 then c + 32 else c

def to_lowercase (s : Str) : Str := s.map ascii_lower

/-- Rust `str::find` for a literal pattern: index of the first occurrence. -/
def find_sub (s pat : Str) : Option Nat :=
  if pat.isPrefixOf s then some 0
  else
    match s with
    | [] => none
    | _ :: rest => (find_sub rest pat).map (· + 1)

/-- Rust `str::contains` for a literal pattern. -/
def contains_sub (s pat : Str) : Bool := (find_sub s pat).isSome

/-- The `BAIT_PATTERNS` constant. -/
def bait_patterns : List Str :=
  [strLit "bigbuckbunny", strLit "test-videos.co.uk", strLit "sample-videos.com"]

/-- Model of `VoeResolver::is_bait`: the lowercased URL contains one of the
placeholder patterns. -/
def is_bait (url : Str) : Bool :=
  bait_patterns.any (fun p => contains_sub (to_lowercase url) p)

/-- Model of `\s` of the `regex` crate (Unicode `White_Space`). -/
def rx_space (c : Nat) : Bool :=
  (9 ≤ c ∧ c ≤ 13) ∨ c = 32 ∨ c = 133 ∨ c = 160 ∨ c = 5760 ∨
    (8192 ≤ c ∧ c ≤ 8202) ∨ c = 8232 ∨ c = 8233 ∨ c = 8239 ∨ c = 8287 ∨ c = 12288

/-- Match a literal at the head of the input, returning the remainder. -/
def strip_lit (pat s : Str) : Option Str :=
  if pat.isPrefixOf s then some (s.drop pat.length) else none

/-- The lazy `(\[.*?\])\s*</script>` tail of the JSON-script regex, started
just after the opening `[`: take the shortest extension ending at a `]` that
is followed by `\s*</script>`; `.` cannot cross a newline.  Returns the
captured bracket body (without the surrounding brackets) and the remainder
after `</script>`. -/
def lazy_close : Nat → Str → Str → Option (Str × Str)
  | 0, _, _ => none
  | fuel + 1, acc, s =>
    match s with
    | [] => none
    | c :: rest =>
      if c = 93 then
        match strip_lit (strLit "</script>") (rest.dropWhile rx_space) with
        | some r2 => some (acc, r2)
        | none => lazy_close fuel (acc ++ [c]) rest
      else if c = 10 then none
      else lazy_close fuel (acc ++ [c]) rest

/-- One anchored attempt of the regex
`<script\s+type="application/json">\s*(\[.*?\])\s*</script>` at the head of
`s`: on success, the text of capture group 1 (`[...]`, brackets included)
and the remainder of the input after the whole match. -/
def try_script_at (s : Str) : Option (Str × Str) :=
  match strip_lit (strLit "<script") s with
  | none => none
  | some s1 =>
    if s1.takeWhile rx_space = [] then none
    else
      match strip_lit (strLit "type=\"application/json\">") (s1.dropWhile rx_space) with
      | none => none
      | some s3 =>
        match strip_lit (strLit "[") (s3.dropWhile rx_space) with
        | none => none
        | some s5 =>
          match lazy_close (s5.length + 1) [] s5 with
          | some (body, rest) => some ((91 :: body) ++ [93], rest)
          | none => none

/-- Model of `Regex::captures_iter` for the JSON-script regex: leftmost matches,
scanning resumes after each match. -/
def find_blocks_aux : Nat → Str → List Str
  | 0, _ => []
  | _, [] => []
  | fuel + 1, s =>
    match try_script_at s with
    | some (cap, rest) => cap :: find_blocks_aux fuel rest
    | none => find_blocks_aux fuel s.tail

def find_json_blocks (s : Str) : List Str := find_blocks_aux s.length s

/-- Model of `serde_json::Map::get`: the binding of a key; a duplicate key was
overwritten by its last occurrence on insertion. -/
def j_get (kvs : List (Str × JVal)) (key : Str) : Option JVal :=
  (kvs.reverse.find? (fun kv => kv.1 == key)).map (fun kv => kv.2)

/-- Model of `Value::as_str`. -/
def as_str_val : JVal → Option Str
  | .str s => some s
  | _ => none

/-- The candidate URL pulled from one decoded JSON block:
`deobfuscate(..)`, `as_object()`, `get("direct_access_url")` falling back to
`get("source")` only when the first key is absent, then `as_str()`. -/
def candidate_of_block (block : Str) : Option Str :=
  match deobfuscate block with
  | some (.obj kvs) =>
    match j_get kvs (strLit "direct_access_url") with
    | some v => as_str_val v
    | none =>
      match j_get kvs (strLit "source") with
      | some v => as_str_val v
      | none => none
  | _ => none

/-- The `for caps in json_re.captures_iter` loop body of
`extract_stream_url`: return the first candidate that is not bait; a bait or
unusable block does not stop the scan. -/
def process_blocks : List Str → Option Str
  | [] => none
  | b :: rest =>
    match candidate_of_block b with
    | some u => if is_bait u then process_blocks rest else some u
    | none => process_blocks rest

/-- Model of `[^\s"']` of the fallback regex. -/
def url_char (c : Nat) : Bool := !rx_space c && c ≠ 34 && c ≠ 39

/-- Does `\.(?:mp4|m3u8)` occur inside `run` at some position `≥ 1` (so that
`[^\s"']+` has matched at least one character before the dot)? -/
def has_media_ext_aux : Str → Bool
  | [] => false
  | _ :: rest =>
    ((strLit ".mp4").isPrefixOf rest || (strLit ".m3u8").isPrefixOf rest) ||
      has_media_ext_aux rest

/-- Model of `has_media_ext_aux run` checks positions `1` and upwards inside the run:
a dot at position 0 would leave `[^\s"']+` empty, which the regex rejects. -/
def has_media_ext (run : Str) : Bool := has_media_ext_aux run

/-- One anchored attempt of the fallback regex
`(https?://[^\s"']+\.(?:mp4|m3u8)[^\s"']*)` at the head of `s`: the greedy
character classes make any successful match extend to the whole maximal run
of `[^\s"']` characters after the scheme, and require a `.mp4`/`.m3u8`
occurrence strictly inside that run. -/
def try_url_at (s : Str) : Option Str :=
  match strip_lit (strLit "http") s with
  | none => none
  | some s1 =>
    let ps : Str × Str :=
      match strip_lit (strLit "s") s1 with
      | some s1' => (strLit "https", s1')
      | none => (strLit "http", s1)
    match strip_lit (strLit "://") ps.2 with
    | none => none
    | some s3 =>
      let run := s3.takeWhile url_char
      if has_media_ext run then some ((ps.1 ++ strLit "://") ++ run) else none

/-- Model of `fallback_re.captures(html)`: the first (leftmost) match of the fallback
regex. -/
def find_media_url_aux : Nat → Str → Option Str
  | 0, _ => none
  | _, [] => none
  | fuel + 1, s =>
    match try_url_at s with
    | some u => some u
    | none => find_media_url_aux fuel s.tail

def find_media_url (s : Str) : Option Str := find_media_url_aux s.length s

/-- Model of `VoeResolver::extract_stream_url`: scan the decoded JSON blocks for a
non-bait candidate; if none, fall back to the first bare `.mp4`/`.m3u8` URL,
kept only if it is not bait. -/
def extract_stream_url (html : Str) : Option Str :=
  match process_blocks (find_json_blocks html) with
  | some u => some u
  | none =>
    match find_media_url html with
    | some u => if is_bait u then none else some u
    | none => none

/-- Model of `VoeResolver::resolve_redirect_url`: protocol-relative (`//…`) targets
get `https:` prefixed; absolute targets (starting with `http`) pass through;
anything else is resolved against the base URL's `scheme://host`. -/
def resolve_redirect_url (base_url redirect : Str) : Str :=
  if (strLit "//").isPrefixOf redirect then strLit "https:" ++ redirect
  else if (strLit "http").isPrefixOf redirect then redirect
  else
    match find_sub base_url (strLit "://") with
    | some scheme_end =>
      let rest := base_url.drop (scheme_end + 3)
      let host_end := (find_sub rest (strLit "/")).getD rest.length
      let scheme := base_url.take scheme_end
      let host := rest.take host_end
      ((scheme ++ strLit "://") ++ host) ++ redirect
    | none => redirect

/-! ## FilmpalastToProvider (src/streaming/providers/filmpalastto.rs) -/

def is_ascii_alnum (c : Nat) : Bool :=
  (48 ≤ c ∧ c ≤ 57) ∨ (65 ≤ c ∧ c ≤ 90) ∨ (97 ≤ c ∧ c ≤ 122)

/-- Model of `char::to_ascii_lowercase`. -/
def to_ascii_lower (c : Nat) : Nat := if 65 ≤ c ∧ c ≤ 90 then c + 32 else c

/-- The per-character map of `normalize_title`: ASCII alphanumerics are
lowercased, every other character becomes `'-'`. -/
def slug_char (c : Nat) : Nat := if is_ascii_alnum c then to_ascii_lower c else 45

/-- The collapse loop of `normalize_title`: a dash is emitted only when the
previous emitted character was not a dash (`prev_dash`, initially `true`). -/
def collapse_loop : Str → Bool → Str
  | [], _ => []
  | c :: rest, prev =>
    if c = 45 then
      if prev then collapse_loop rest true else 45 :: collapse_loop rest true
    else c :: collapse_loop rest false

/-- Rust `str::trim_matches('-')`: drop every leading and trailing dash. -/
def trim_dashes (s : Str) : Str :=
  ((s.dropWhile (· = 45)).reverse.dropWhile (· = 45)).reverse

/-- Model of `FilmpalastToProvider::normalize_title`. -/
def normalize_title (title : Str) : Str :=
  trim_dashes (collapse_loop (title.map slug_char) true)

/-- Squash each run of consecutive dashes to a single dash — the
specification's description of the collapse stage, written independently of
the source's `prev_dash` loop (its initial state drops leading dashes, the
difference the equivalence theorem has to bridge). -/
def squash_dashes : Str → Str
  | [] => []
  | c :: rest =>
    if c = 45 then
      if rest.head? = some 45 then squash_dashes rest else 45 :: squash_dashes rest
    else c :: squash_dashes rest

/-- Specification-side restatement (for comparison with the source's
`normalize_title`): the slug normalization as section 4.3 words it —
lowercase alphanumerics, every other character collapsed to a single hyphen,
leading/trailing hyphens trimmed, consecutive hyphens collapsed to one. -/
def normalize_title_spec (title : Str) : Str :=
  trim_dashes (squash_dashes (title.map slug_char))

/-! ## StreamingService (src/streaming/mod.rs) -/

/-- Model of `StreamError`. -/
inductive StreamError where
  | network (msg : Str)
  | parse (msg : Str)
  | notFound (msg : Str)
  | config (msg : Str)
deriving DecidableEq

/-- A registered `StreamResolver`, reduced to the two methods
`get_stream_url` calls; `resolve`'s network effects are abstracted into a
function from the page URL to the call's result. -/
structure ResolverM where
  can_handle : Str → Bool
  resolve : Str → Except StreamError Str

/-- The inner resolver loop of `StreamingService::get_stream_url` for one
page URL: skip resolvers whose `can_handle` rejects the URL, return the
first success, otherwise remember the error of every failed `resolve` call
(the accumulator is `last_error`). -/
def try_resolvers : List ResolverM → Str → StreamError → Option Str × StreamError
  | [], _, acc => (none, acc)
  | r :: rs, url, acc =>
    if r.can_handle url then
      match r.resolve url with
      | .ok s => (some s, acc)
      | .error e => try_resolvers rs url e
    else try_resolvers rs url acc

/-- The provider loop of `StreamingService::get_stream_url`.  Each
registered provider is represented by the result of its
`get_stream_page_url(title)` call. -/
def providers_loop : List (Except StreamError Str) → List ResolverM → StreamError →
    Except StreamError Str
  | [], _, acc => .error acc
  | p :: ps, rs, acc =>
    match p with
    | .ok page_url =>
      match try_resolvers rs page_url acc with
      | (some s, _) => .ok s
      | (none, acc') => providers_loop ps rs acc'
    | .error e => providers_loop ps rs e

/-- Model of `StreamingService::get_stream_url`: try every provider in registration
order, for each page URL every matching resolver in registration order;
`last_error` starts as `NotFound("No providers available")`. -/
def get_stream_url (providers : List (Except StreamError Str)) (resolvers : List ResolverM) :
    Except StreamError Str :=
  providers_loop providers resolvers (.notFound (strLit "No providers available"))

/-- The sequence of errors observed during the whole traversal, in order:
provider failures, and for each provider success the failures of the
matching resolvers (cut short by nothing — used under the hypothesis that no
combination succeeds). -/
def resolver_errors (rs : List ResolverM) (url : Str) : List StreamError :=
  (rs.filter (fun r => r.can_handle url)).filterMap
    (fun r => match r.resolve url with | .ok _ => none | .error e => some e)

def traversal_errors (ps : List (Except StreamError Str)) (rs : List ResolverM) :
    List StreamError :=
  ps.flatMap (fun p =>
    match p with
    | .ok url => resolver_errors rs url
    | .error e => [e])

/-- No provider/resolver combination succeeds: every provider either fails
or yields a page URL on which every matching resolver fails. -/
def no_success (ps : List (Except StreamError Str)) (rs : List ResolverM) : Prop :=
  ∀ p ∈ ps, ∀ url, p = .ok url →
    ∀ r ∈ rs, r.can_handle url = true → ∃ e, r.resolve url = .error e

/-! ## Decode engines and facades (src/video.rs, src/movie_player.rs)

The worker thread, channels and join handle are modelled by explicit state:
the frame channel is its queue of pending `FrameData`, the command channel
and the join handle are identifiers.  Two ghost lists track every worker
thread spawned by the instance and not yet joined, and every channel pair
created and not yet torn down; `thread::spawn` appends a fresh identifier,
`JoinHandle::join` (always called by `stop`) removes it.  `f64` quantities
(playback position, duration, volume) are modelled as rationals — the
claims only compare them against the constant `5.0`, on which IEEE and
rational comparison agree. -/

/-- Model of `FrameData` (RGBA buffer scaled to the target size). -/
structure FrameData where
  width : Nat
  height : Nat
  data : List Nat
deriving DecidableEq

/-- Model of `VideoPlayer` (src/video.rs), with ghost resource lists. -/
structure VideoPlayerM where
  current_media_id : Option Nat
  current_frame : Option FrameData
  frame_receiver : Option (List FrameData)
  command_sender : Option Nat
  decoder_thread : Option Nat
  is_playing : Bool
  is_muted : Bool
  is_ended : Bool
  current_url : Option Str
  live_threads : List Nat
  live_chans : List Nat
  next_id : Nat

/-- Model of `VideoPlayer::new`. -/
def VideoPlayerM.new : VideoPlayerM :=
  { current_media_id := none, current_frame := none, frame_receiver := none
    command_sender := none, decoder_thread := none, is_playing := false
    is_muted := false, is_ended := false, current_url := none
    live_threads := [], live_chans := [], next_id := 0 }

/-- Model of `VideoPlayer::stop`: send `Shutdown` through a taken sender, join the
taken thread handle (synchronous — the ghost thread and channel pair die
here), clear receiver, media id, URL, playing flag and held frame. -/
def VideoPlayerM.stop (s : VideoPlayerM) : VideoPlayerM :=
  { s with
    command_sender := none
    decoder_thread := none
    live_threads := match s.decoder_thread with
      | some h => s.live_threads.erase h
      | none => s.live_threads
    live_chans := match s.decoder_thread with
      | some h => s.live_chans.erase h
      | none => s.live_chans
    frame_receiver := none, current_media_id := none, current_url := none
    is_playing := false, current_frame := none }

/-- Model of `VideoPlayer::play`: `self.stop()` first, then fresh bounded frame
channel, unbounded command channel and decoder thread. -/
def VideoPlayerM.play (s : VideoPlayerM) (media_id : Nat) (url : Str) : VideoPlayerM :=
  let t := s.stop
  { t with
    is_ended := false
    frame_receiver := some []
    command_sender := some t.next_id
    decoder_thread := some t.next_id
    live_threads := t.live_threads ++ [t.next_id]
    live_chans := t.live_chans ++ [t.next_id]
    next_id := t.next_id + 1
    current_media_id := some media_id
    current_url := some url
    is_playing := true }

/-- Model of `VideoPlayer::pause` (command send only affects the worker). -/
def VideoPlayerM.pause (s : VideoPlayerM) : VideoPlayerM := { s with is_playing := false }

/-- Model of `VideoPlayer::resume`. -/
def VideoPlayerM.resume (s : VideoPlayerM) : VideoPlayerM := { s with is_playing := true }

/-- Model of `VideoPlayer::toggle_mute`. -/
def VideoPlayerM.toggle_mute (s : VideoPlayerM) : VideoPlayerM :=
  { s with is_muted := !s.is_muted }

/-- Model of `VideoPlayer::render_frame`: `self.frame_receiver.as_ref()?`; a
successful `try_recv` pops the channel's front frame and stores it as the
held frame; an empty channel falls back to `self.current_frame.clone()`. -/
def VideoPlayerM.render_frame (s : VideoPlayerM) : Option FrameData × VideoPlayerM :=
  match s.frame_receiver with
  | none => (none, s)
  | some [] => (s.current_frame, s)
  | some (f :: rest) =>
    (some f, { s with frame_receiver := some rest, current_frame := some f })

/-- The facade calls of src/video.rs exercised by the lifecycle claim. -/
inductive PlayerOp where
  | play (media_id : Nat) (url : Str)
  | stop
  | pause
  | resume
  | toggleMute
  | renderFrame

def VideoPlayerM.step (s : VideoPlayerM) : PlayerOp → VideoPlayerM
  | .play id url => s.play id url
  | .stop => s.stop
  | .pause => s.pause
  | .resume => s.resume
  | .toggleMute => s.toggle_mute
  | .renderFrame => (s.render_frame).2

def VideoPlayerM.run (s : VideoPlayerM) : List PlayerOp → VideoPlayerM
  | [] => s
  | op :: ops => (s.step op).run ops

/-- The resource invariant of a `VideoPlayer` instance: the ghost lists
mirror `decoder_thread`, so there is at most one live worker and one live
channel pair. -/
def VideoPlayerM.wf (s : VideoPlayerM) : Prop :=
  (∀ h, s.decoder_thread = some h → s.live_threads = [h] ∧ s.live_chans = [h] ∧ h < s.next_id) ∧
    (s.decoder_thread = none → s.live_threads = [] ∧ s.live_chans = [])

/-! ### MoviePlayer (src/movie_player.rs) -/

/-- Model of `PlaybackProgressStore`: the in-memory `HashMap<MediaId, f64>`; the
mirror copy on disk (`save`/`load`) is outside the model.  The map is an
association list whose most recent binding is first. -/
def ProgressMap := List (Nat × ℚ)

/-- Model of `PlaybackProgressStore::get`. -/
def progress_get (m : List (Nat × ℚ)) (media_id : Nat) : Option ℚ :=
  (m.find? (fun kv => kv.1 == media_id)).map (fun kv => kv.2)

/-- Model of `PlaybackProgressStore::set`: `HashMap::insert` (overwrite) followed by
`save`. -/
def progress_set (m : List (Nat × ℚ)) (media_id : Nat) (position : ℚ) : List (Nat × ℚ) :=
  (media_id, position) :: m.filter (fun kv => kv.1 != media_id)

/-- Model of `MoviePlayer`, with the same ghost resource lists as `VideoPlayerM`;
`shared_state` is inlined as `position`/`duration`/`ended`. -/
structure MoviePlayerM where
  current_media_id : Option Nat
  current_frame : Option FrameData
  frame_receiver : Option (List FrameData)
  command_sender : Option Nat
  decoder_thread : Option Nat
  position : ℚ
  duration : ℚ
  is_ended : Bool
  is_playing : Bool
  is_muted : Bool
  volume : ℚ
  current_url : Option Str
  progress_store : List (Nat × ℚ)
  live_threads : List Nat
  live_chans : List Nat
  next_id : Nat

/-- Model of `MoviePlayer::stop` (same teardown as `VideoPlayer::stop`). -/
def MoviePlayerM.stop (s : MoviePlayerM) : MoviePlayerM :=
  { s with
    command_sender := none
    decoder_thread := none
    live_threads := match s.decoder_thread with
      | some h => s.live_threads.erase h
      | none => s.live_threads
    live_chans := match s.decoder_thread with
      | some h => s.live_chans.erase h
      | none => s.live_chans
    frame_receiver := none, current_media_id := none, current_url := none
    is_playing := false, current_frame := none }

/-- Model of `MoviePlayer::play`: `self.stop()`, fresh channels, thread and shared
state (position/duration zeroed). -/
def MoviePlayerM.play (s : MoviePlayerM) (media_id : Nat) (url : Str) : MoviePlayerM :=
  let t := s.stop
  { t with
    position := 0, duration := 0, is_ended := false
    frame_receiver := some []
    command_sender := some t.next_id
    decoder_thread := some t.next_id
    live_threads := t.live_threads ++ [t.next_id]
    live_chans := t.live_chans ++ [t.next_id]
    next_id := t.next_id + 1
    current_media_id := some media_id
    current_url := some url
    is_playing := true }

/-- Model of `MoviePlayer::get_new_frame`: `self.frame_receiver.as_ref()?`; a newly
arrived frame is cloned into `current_frame` and returned; otherwise the
call returns `None` (unlike `VideoPlayer::render_frame`, there is no
fall-back to the held frame — `get_current_frame` serves it separately). -/
def MoviePlayerM.get_new_frame (s : MoviePlayerM) : Option FrameData × MoviePlayerM :=
  match s.frame_receiver with
  | none => (none, s)
  | some [] => (none, s)
  | some (f :: rest) =>
    (some f, { s with frame_receiver := some rest, current_frame := some f })

/-- Model of `MoviePlayer::get_current_frame`. -/
def MoviePlayerM.get_current_frame (s : MoviePlayerM) : Option FrameData := s.current_frame

/-- Model of `MoviePlayer::save_progress_sync`: only with a current media id and only
for `pos > 5.0` is `store.set(id, pos)` called (the uncontended `try_lock`
of the single-threaded model always succeeds). -/
def MoviePlayerM.save_progress_sync (s : MoviePlayerM) : MoviePlayerM :=
  match s.current_media_id with
  | some id =>
    if s.position > 5 then
      { s with progress_store := progress_set s.progress_store id s.position }
    else s
  | none => s

def MoviePlayerM.step (s : MoviePlayerM) : PlayerOp → MoviePlayerM
  | .play id url => s.play id url
  | .stop => s.stop
  | .pause => { s with is_playing := false }
  | .resume => { s with is_playing := true }
  | .toggleMute => { s with is_muted := !s.is_muted }
  | .renderFrame => (s.get_new_frame).2

def MoviePlayerM.run (s : MoviePlayerM) : List PlayerOp → MoviePlayerM
  | [] => s
  | op :: ops => (s.step op).run ops

/-- Resource invariant of a `MoviePlayer` instance. -/
def MoviePlayerM.wf (s : MoviePlayerM) : Prop :=
  (∀ h, s.decoder_thread = some h → s.live_threads = [h] ∧ s.live_chans = [h] ∧ h < s.next_id) ∧
    (s.decoder_thread = none → s.live_threads = [] ∧ s.live_chans = [])

/-- Model of `MoviePlayer::new`. -/
def MoviePlayerM.new (store : List (Nat × ℚ)) : MoviePlayerM :=
  { current_media_id := none, current_frame := none, frame_receiver := none
    command_sender := none, decoder_thread := none, position := 0, duration := 0
    is_ended := false, is_playing := false, is_muted := false, volume := 1
    current_url := none, progress_store := store
    live_threads := [], live_chans := [], next_id := 0 }

/-! ## Observers and concrete witness data -/

/-- Observer for the decode chain: the raw bytes produced by the second
(stage-six) base64 decode, before `from_utf8_lossy` — recomputed through the
same stage functions `deobfuscate` composes. -/
def stage_six_bytes (raw_json : Str) : Option (List Nat) := do
  let array ← parse_string_array raw_json
  let obfuscated ← array.head?
  let step3 ← safe_b64_decode (strip_markers (rot13 obfuscated))
  safe_b64_bytes ((shift_chars step3 3).reverse)

/-- Obfuscated input whose stage-six base64 decode yields the bytes
`[0x22, 0xFF, 0x22]` — `0xFF` is not valid UTF-8. -/
def c1_input : Str := strLit "[\"oQg5GN==\"]"

/-- Obfuscated script block decoding to
`{"source": "http://bigbuckbunny/v.mp4"}` (a bait URL). -/
def block_bait : Str :=
  strLit "[\"DQAkGQARJ2I4KQMCBQujMGEAAJEgJKSppJ9jKUx7oSW6IHgapx1fHzkLAIk8JGMysH18nN==\"]"

/-- Obfuscated script block decoding to
`{"source": "https://cdn.example.com/v.m3u8"}`. -/
def block_good : Str :=
  strLit "[\"DROHnJkdI2q9Z3OCAGkJMKyEpR9ir0czq0yXnT84oTIhHGICrKW9MacIF2qlGJkFoSt1KUkMAzI9GKkb\"]"

/-- A page body with two obfuscated JSON script blocks: the first decodes to
a bait URL, the second to a genuine one. -/
def html_w : Str :=
  (strLit "<p><script type=\"application/json\">" ++ block_bait ++ strLit "</script>") ++
    (strLit "<script type=\"application/json\">" ++ block_good ++ strLit "</script></p>")

def bait_url : Str := strLit "http://bigbuckbunny/v.mp4"

def good_url : Str := strLit "https://cdn.example.com/v.m3u8"

/-- A `MoviePlayer` state in which playback has started (worker, channels
and media id live), one frame has already been received and held, and no
further frame is pending. -/
def mp_after_frame : MoviePlayerM :=
  { MoviePlayerM.new [] with
    current_media_id := some 7
    current_frame := some ⟨2, 2, [0, 0, 0, 255]⟩
    frame_receiver := some []
    command_sender := some 0
    decoder_thread := some 0
    is_playing := true
    live_threads := [0]
    live_chans := [0]
    next_id := 1 }

/-! ## Theorems -/

theorem rot13c_involutive (c : Nat) : rot13c (rot13c c) = c := by
  unfold rot13c
  split_ifs <;> omega

/-- C10: the resolver's rot13 stage is an involution — for every string
`s`, `rot13 (rot13 s) = s`; each ASCII letter maps to an ASCII letter of the
same case, and every non-letter character is unchanged. -/
theorem C10_rot13_involution :
    (∀ s : Str, rot13 (rot13 s) = s) ∧
    (∀ c, 65 ≤ c → c ≤ 90 → 65 ≤ rot13c c ∧ rot13c c ≤ 90) ∧
    (∀ c, 97 ≤ c → c ≤ 122 → 97 ≤ rot13c c ∧ rot13c c ≤ 122) ∧
    (∀ c, ¬(65 ≤ c ∧ c ≤ 90) → ¬(97 ≤ c ∧ c ≤ 122) → rot13c c = c) := by
  refine ⟨fun s => ?_, fun c h1 h2 => ?_, fun c h1 h2 => ?_, fun c h1 h2 => ?_⟩
  · simp [rot13, List.map_map, Function.comp_def, rot13c_involutive]
  · unfold rot13c; split_ifs <;> omega
  · unfold rot13c; split_ifs <;> omega
  · unfold rot13c; split_ifs <;> omega

/-- Witness for C10 at concrete inputs. -/
theorem C10_rot13_involution_witness :
    rot13 (rot13 (strLit "Gur-Zngevk")) = strLit "Gur-Zngevk" ∧
    (65 ≤ rot13c 77 ∧ rot13c 77 ≤ 90) ∧
    (97 ≤ rot13c 109 ∧ rot13c 109 ≤ 122) ∧
    rot13c 45 = 45 :=
  ⟨C10_rot13_involution.1 (strLit "Gur-Zngevk"),
   C10_rot13_involution.2.1 77 (by decide) (by decide),
   C10_rot13_involution.2.2.1 109 (by decide) (by decide),
   C10_rot13_involution.2.2.2 45 (by decide) (by decide)⟩

/-- C3 counterexample: `shift_chars` does not always preserve the character
count.  U+E000 shifted down by 3 lands on U+DFFD, a surrogate, which
`char::from_u32` rejects and `filter_map` silently drops — the output of a
one-character input is empty. -/
theorem C3_shift_chars_counterexample :
    shift_chars [0xE000] 3 = [] ∧
    (shift_chars [0xE000] 3).length ≠ ([0xE000] : Str).length := by
  constructor
  · rfl
  · decide

/-- C3 (amended): stage 4 subtracts 3 from every character's code point,
keeps the original character where the subtraction would go below zero, and
drops a character whose shifted code point falls into the surrogate range
(where `char::from_u32` returns `None`); the output length equals the input
length whenever no character's shifted value is a surrogate, and never
exceeds it. -/
theorem shift3_keep (c : Nat) (rest : Str) (h : c < 3) :
    shift_chars (c :: rest) 3 = c :: shift_chars rest 3 := by
  unfold shift_chars
  rw [List.filterMap_cons, if_neg (by omega)]

theorem shift3_sub (c : Nat) (rest : Str) (h3 : 3 ≤ c)
    (hv : c - 3 < 0xD800 ∨ (0xE000 ≤ c - 3 ∧ c - 3 ≤ 0x10FFFF)) :
    shift_chars (c :: rest) 3 = (c - 3) :: shift_chars rest 3 := by
  unfold shift_chars char_from_u32
  rw [List.filterMap_cons, if_pos h3, if_pos hv]

theorem shift3_drop (c : Nat) (rest : Str) (h3 : 3 ≤ c)
    (hv : ¬(c - 3 < 0xD800 ∨ (0xE000 ≤ c - 3 ∧ c - 3 ≤ 0x10FFFF))) :
    shift_chars (c :: rest) 3 = shift_chars rest 3 := by
  unfold shift_chars char_from_u32
  rw [List.filterMap_cons, if_pos h3, if_neg hv]

theorem C3_shift_chars_amended :
    (∀ c, c < 3 → shift_chars [c] 3 = [c]) ∧
    (∀ c, 3 ≤ c → c ≤ 0x10FFFF → ¬(0xD800 ≤ c - 3 ∧ c - 3 ≤ 0xDFFF) →
       shift_chars [c] 3 = [c - 3]) ∧
    (∀ c, 3 ≤ c → 0xD800 ≤ c - 3 → c - 3 ≤ 0xDFFF → shift_chars [c] 3 = []) ∧
    (∀ s : Str, (∀ c ∈ s, c ≤ 0x10FFFF ∧ ¬(0xD803 ≤ c ∧ c ≤ 0xE002)) →
       (shift_chars s 3).length = s.length) ∧
    (∀ s : Str, (shift_chars s 3).length ≤ s.length) := by
  refine ⟨fun c h => ?_, fun c h1 h2 h3 => ?_, fun c h1 h2 h3 => ?_, fun s h => ?_, fun s => ?_⟩
  · rw [shift3_keep c [] h]; rfl
  · rw [shift3_sub c [] h1 (by omega)]; rfl
  · rw [shift3_drop c [] h1 (by omega)]; rfl
  · induction s with
    | nil => rfl
    | cons c rest ih =>
      have hc := h c (List.mem_cons_self c rest)
      have hrest := ih (fun x hx => h x (List.mem_cons_of_mem c hx))
      rcases Nat.lt_or_ge c 3 with h3 | h3
      · rw [shift3_keep c rest h3]
        simp [hrest]
      · rw [shift3_sub c rest h3 (by omega)]
        simp [hrest]
  · induction s with
    | nil => exact Nat.le_refl _
    | cons c rest ih =>
      rcases Nat.lt_or_ge c 3 with h3 | h3
      · rw [shift3_keep c rest h3]
        simpa using ih
      · by_cases hv : c - 3 < 0xD800 ∨ (0xE000 ≤ c - 3 ∧ c - 3 ≤ 0x10FFFF)
        · rw [shift3_sub c rest h3 hv]
          simpa using ih
        · rw [shift3_drop c rest h3 hv]
          exact Nat.le_trans ih (by simp)

/-- Witness for C3's amended theorem at concrete inputs. -/
theorem C3_shift_chars_amended_witness :
    shift_chars [1] 3 = [1] ∧ shift_chars [100] 3 = [97] ∧
    shift_chars [0xE001] 3 = [] ∧
    (shift_chars (strLit "i8vI") 3).length = (strLit "i8vI").length ∧
    (shift_chars [0xE000, 70] 3).length ≤ ([0xE000, 70] : Str).length :=
  ⟨C3_shift_chars_amended.1 1 (by decide),
   C3_shift_chars_amended.2.1 100 (by decide) (by decide) (by decide),
   C3_shift_chars_amended.2.2.1 0xE001 (by decide) (by decide) (by decide),
   C3_shift_chars_amended.2.2.2.1 (strLit "i8vI") (by decide),
   C3_shift_chars_amended.2.2.2.2 [0xE000, 70]⟩

/-- C4: `save_progress_sync` writes through to the progress store only for
positions strictly above 5 seconds; a write with position ≤ 5 leaves the
store untouched, a write with position > 5 inserts/overwrites and a
subsequent `get` returns that position. -/
theorem C4_progress_threshold (m : MoviePlayerM) (id : Nat)
    (hid : m.current_media_id = some id) :
    (m.position ≤ 5 → (m.save_progress_sync).progress_store = m.progress_store) ∧
    (m.position > 5 →
      (m.save_progress_sync).progress_store = progress_set m.progress_store id m.position ∧
      progress_get (m.save_progress_sync).progress_store id = some m.position) := by
  constructor
  · intro hle
    unfold MoviePlayerM.save_progress_sync
    rw [hid]
    simp only
    rw [if_neg (by exact not_lt.mpr hle)]
  · intro hgt
    unfold MoviePlayerM.save_progress_sync
    rw [hid]
    simp only
    rw [if_pos hgt]
    refine ⟨rfl, ?_⟩
    simp [progress_get, progress_set]

/-- Witness for C4 at a concrete store state. -/
theorem C4_progress_threshold_witness :
    (({ MoviePlayerM.new [(9, 30)] with
        current_media_id := some 9, position := 4 } : MoviePlayerM).save_progress_sync.progress_store
      = [(9, 30)]) ∧
    progress_get
      (({ MoviePlayerM.new [(9, 30)] with
          current_media_id := some 9, position := 125/10 } : MoviePlayerM).save_progress_sync.progress_store)
      9 = some (125/10) :=
  ⟨(C4_progress_threshold _ 9 rfl).1 (by norm_num),
   ((C4_progress_threshold _ 9 rfl).2 (by norm_num)).2⟩

theorem isPrefixOf_append_self (l t : Str) : l.isPrefixOf (l ++ t) = true := by
  rw [List.isPrefixOf_iff_prefix]
  exact List.prefix_append l t

theorem find_sub_at_boundary (s1 t : Str) (p : Nat) (pat : Str)
    (hhead : pat.head? = some p) (hnot : p ∉ s1) :
    find_sub (s1 ++ (pat ++ t)) pat = some s1.length := by
  induction s1 with
  | nil =>
    simp only [List.nil_append, List.length_nil]
    unfold find_sub
    rw [isPrefixOf_append_self]
    rfl
  | cons c rest ih =>
    have hc : c ≠ p := fun h => hnot (h ▸ List.mem_cons_self c rest)
    have hnot' : p ∉ rest := fun h => hnot (List.mem_cons_of_mem c h)
    have hfail : pat.isPrefixOf (c :: (rest ++ (pat ++ t))) = false := by
      cases pat with
      | nil => cases hhead
      | cons q pat' =>
        have : q = p := by simpa using hhead
        subst this
        simp [List.isPrefixOf]
        intro h
        exact absurd h.symm hc
    rw [List.cons_append]
    unfold find_sub
    rw [hfail]
    simp [ih hnot']

/-- C6: redirect resolution.  A protocol-relative target `//…` becomes
`https://…`; an absolute target starting with `http` is returned unchanged;
any other target is resolved against the base URL's `scheme://host`
(path-relative `/y` against `scheme://host/path` gives `scheme://host/y`). -/
theorem C6_resolve_redirect :
    (∀ base r : Str, (strLit "//").isPrefixOf r = true →
       resolve_redirect_url base r = strLit "https:" ++ r) ∧
    (∀ base r : Str, (strLit "//").isPrefixOf r = false →
       (strLit "http").isPrefixOf r = true → resolve_redirect_url base r = r) ∧
    (∀ scheme host tail r : Str, 58 ∉ scheme → 47 ∉ host →
       (strLit "//").isPrefixOf r = false → (strLit "http").isPrefixOf r = false →
       resolve_redirect_url ((scheme ++ strLit "://") ++ (host ++ (47 :: tail))) r
         = (scheme ++ strLit "://") ++ (host ++ r)) := by
  refine ⟨fun base r h => ?_, fun base r h1 h2 => ?_, fun scheme host tail r hs hh h1 h2 => ?_⟩
  · unfold resolve_redirect_url
    rw [h]
    rfl
  · unfold resolve_redirect_url
    rw [h1, h2]
    rfl
  · unfold resolve_redirect_url
    rw [h1, h2]
    simp only [Bool.false_eq_true, if_false]
    have hfind : find_sub ((scheme ++ strLit "://") ++ (host ++ (47 :: tail))) (strLit "://")
        = some scheme.length := by
      rw [List.append_assoc]
      exact find_sub_at_boundary scheme (host ++ (47 :: tail)) 58 (strLit "://") rfl hs
    rw [hfind]
    simp only
    have hdrop : ((scheme ++ strLit "://") ++ (host ++ (47 :: tail))).drop (scheme.length + 3)
        = host ++ (47 :: tail) := by
      have hlen : (scheme ++ strLit "://").length = scheme.length + 3 := by
        simp [strLit]
      rw [← hlen, List.drop_left]
    rw [hdrop]
    have hfind2 : find_sub (host ++ (47 :: tail)) (strLit "/") = some host.length :=
      find_sub_at_boundary host tail 47 (strLit "/") rfl hh
    rw [hfind2]
    simp only [Option.getD_some]
    have htake1 : ((scheme ++ strLit "://") ++ (host ++ (47 :: tail))).take scheme.length
        = scheme := by
      rw [List.append_assoc]
      exact List.take_left scheme _
    have htake2 : (host ++ (47 :: tail)).take host.length = host := List.take_left host _
    rw [htake1, htake2]
    simp [List.append_assoc]

/-- Witness for C6 at the spec's concrete examples. -/
theorem C6_resolve_redirect_witness :
    resolve_redirect_url (strLit "https://a.com/p/x") (strLit "//b.com/z")
      = strLit "https://b.com/z" ∧
    resolve_redirect_url (strLit "https://a.com/p/x") (strLit "http://c.com/w")
      = strLit "http://c.com/w" ∧
    resolve_redirect_url (strLit "https://a.com/p/x") (strLit "/y")
      = strLit "https://a.com/y" := by
  refine ⟨?_, ?_, ?_⟩
  · have := C6_resolve_redirect.1 (strLit "https://a.com/p/x") (strLit "//b.com/z") (by decide)
    simpa using this
  · exact C6_resolve_redirect.2.1 _ _ (by decide) (by decide)
  · have := C6_resolve_redirect.2.2 (strLit "https") (strLit "a.com") (strLit "p/x")
      (strLit "/y") (by decide) (by decide) (by decide) (by decide)
    simpa using this

theorem collapse_loop_dash_t (rest : Str) :
    collapse_loop (45 :: rest) true = collapse_loop rest true := by
  simp [collapse_loop]

theorem collapse_loop_dash_f (rest : Str) :
    collapse_loop (45 :: rest) false = 45 :: collapse_loop rest true := by
  simp [collapse_loop]

theorem collapse_loop_nodash (c : Nat) (rest : Str) (b : Bool) (h : c ≠ 45) :
    collapse_loop (c :: rest) b = c :: collapse_loop rest false := by
  simp [collapse_loop, h]

theorem squash_dashes_dash_dash (rest : Str) (h : rest.head? = some 45) :
    squash_dashes (45 :: rest) = squash_dashes rest := by
  simp [squash_dashes, h]

theorem squash_dashes_dash (rest : Str) (h : rest.head? ≠ some 45) :
    squash_dashes (45 :: rest) = 45 :: squash_dashes rest := by
  simp [squash_dashes, h]

theorem squash_dashes_nodash (c : Nat) (rest : Str) (h : c ≠ 45) :
    squash_dashes (c :: rest) = c :: squash_dashes rest := by
  simp [squash_dashes, h]

theorem collapse_loop_true_head (s : Str) :
    (collapse_loop s true).head? ≠ some 45 := by
  induction s with
  | nil => simp [collapse_loop]
  | cons c rest ih =>
    by_cases hc : c = 45
    · subst hc
      rw [collapse_loop_dash_t]
      exact ih
    · rw [collapse_loop_nodash c rest true hc]
      simpa using hc

theorem squash_dashes_head (s : Str) (h : s.head? ≠ some 45) :
    (squash_dashes s).head? ≠ some 45 := by
  cases s with
  | nil => simp [squash_dashes]
  | cons c rest =>
    have hc : c ≠ 45 := by simpa using h
    rw [squash_dashes_nodash c rest hc]
    simpa using hc

theorem dropWhile_dash_nohead (l : Str) (h : l.head? ≠ some 45) :
    l.dropWhile (· = 45) = l := by
  cases l with
  | nil => rfl
  | cons q qs =>
    have hq : q ≠ 45 := by simpa using h
    rw [List.dropWhile_cons, if_neg (by simpa using hq)]

theorem squash_dashes_dash_head (s : Str) (h : s.head? = some 45) :
    squash_dashes s = 45 :: (squash_dashes s).dropWhile (· = 45) := by
  induction s with
  | nil => cases h
  | cons c rest ih =>
    have hc : c = 45 := by simpa using h
    subst hc
    by_cases hr : rest.head? = some 45
    · rw [squash_dashes_dash_dash rest hr]
      exact ih hr
    · rw [squash_dashes_dash rest hr]
      rw [List.dropWhile_cons, if_pos (by decide)]
      rw [dropWhile_dash_nohead _ (squash_dashes_head rest hr)]

theorem collapse_loop_true_eq (s : Str) :
    collapse_loop s true = (collapse_loop s false).dropWhile (· = 45) := by
  induction s with
  | nil => rfl
  | cons c rest ih =>
    by_cases hc : c = 45
    · subst hc
      rw [collapse_loop_dash_t, collapse_loop_dash_f]
      rw [List.dropWhile_cons, if_pos (by decide)]
      rw [ih]
      rw [List.dropWhile_idempotent]
    · rw [collapse_loop_nodash c rest true hc, collapse_loop_nodash c rest false hc]
      rw [dropWhile_dash_nohead _ (by simpa using hc)]

theorem collapse_loop_false_eq (s : Str) :
    collapse_loop s false = squash_dashes s := by
  induction s with
  | nil => rfl
  | cons c rest ih =>
    by_cases hc : c = 45
    · subst hc
      rw [collapse_loop_dash_f, collapse_loop_true_eq, ih]
      by_cases hr : rest.head? = some 45
      · rw [squash_dashes_dash_dash rest hr]
        exact (squash_dashes_dash_head rest hr).symm
      · rw [squash_dashes_dash rest hr]
        rw [dropWhile_dash_nohead _ (squash_dashes_head rest hr)]
    · rw [collapse_loop_nodash c rest false hc, squash_dashes_nodash c rest hc, ih]

theorem trim_dashes_dropWhile (s : Str) :
    trim_dashes (s.dropWhile (· = 45)) = trim_dashes s := by
  unfold trim_dashes
  rw [List.dropWhile_idempotent]

/-- C7: the provider's slug normalization agrees, on every title, with the
specification's stage description — lowercase ASCII alphanumerics, every
other character mapped to a hyphen, consecutive hyphens collapsed to one,
leading/trailing hyphens trimmed — and sends `"The Matrix: Reloaded!!"` to
`"the-matrix-reloaded"`. -/
theorem C7_normalize_title :
    (∀ title : Str, normalize_title title = normalize_title_spec title) ∧
    normalize_title (strLit "The Matrix: Reloaded!!") = strLit "the-matrix-reloaded" := by
  constructor
  · intro title
    unfold normalize_title normalize_title_spec
    rw [collapse_loop_true_eq, collapse_loop_false_eq, trim_dashes_dropWhile]
  · rfl

/-- C1 counterexample: malformed UTF-8 inside a decoded stage does NOT make
`deobfuscate` return nothing.  On `c1_input` the stage-six base64 decode
produces the bytes `[0x22, 0xFF, 0x22]`, which are not valid UTF-8; yet
`from_utf8_lossy` replaces the bad byte with U+FFFD and the chain succeeds,
returning the JSON string `"�"`. -/
theorem C1_utf8_stage_counterexample :
    stage_six_bytes c1_input = some [34, 255, 34] ∧
    valid_utf8 [34, 255, 34] = false ∧
    deobfuscate c1_input = some (.str [0xFFFD]) ∧
    deobfuscate c1_input ≠ none := by
  refine ⟨rfl, rfl, rfl, ?_⟩
  intro h
  rw [show deobfuscate c1_input = some (JVal.str [0xFFFD]) from rfl] at h
  cases h

/-- C1 (amended): `deobfuscate` returns nothing exactly when a fallible
stage fails — the input does not parse as a JSON string array, the array is
empty, either base64 stage rejects its input, or the final JSON parse fails.
Malformed UTF-8 in decoded bytes is not a failure (it is lossily replaced).
When it returns a value, every stage succeeded and the value is the full
final parse (no partial results); being a total Lean function, it never
panics. -/
theorem C1_deobfuscate_abort_amended :
    (∀ raw : Str, parse_string_array raw = none → deobfuscate raw = none) ∧
    (∀ raw : Str, parse_string_array raw = some [] → deobfuscate raw = none) ∧
    (∀ (raw a : Str) (rest : List Str), parse_string_array raw = some (a :: rest) →
       safe_b64_decode (strip_markers (rot13 a)) = none → deobfuscate raw = none) ∧
    (∀ (raw a : Str) (rest : List Str) (s3 : Str), parse_string_array raw = some (a :: rest) →
       safe_b64_decode (strip_markers (rot13 a)) = some s3 →
       safe_b64_decode ((shift_chars s3 3).reverse) = none → deobfuscate raw = none) ∧
    (∀ (raw a : Str) (rest : List Str) (s3 s6 : Str), parse_string_array raw = some (a :: rest) →
       safe_b64_decode (strip_markers (rot13 a)) = some s3 →
       safe_b64_decode ((shift_chars s3 3).reverse) = some s6 →
       json_from_str s6 = none → deobfuscate raw = none) ∧
    (∀ (raw : Str) (v : JVal), deobfuscate raw = some v →
       ∃ (a : Str) (rest : List Str) (s3 s6 : Str),
         parse_string_array raw = some (a :: rest) ∧
         safe_b64_decode (strip_markers (rot13 a)) = some s3 ∧
         safe_b64_decode ((shift_chars s3 3).reverse) = some s6 ∧
         json_from_str s6 = some v) := by
  refine ⟨fun raw h => ?_, fun raw h => ?_, fun raw a rest h1 h2 => ?_,
    fun raw a rest s3 h1 h2 h3 => ?_, fun raw a rest s3 s6 h1 h2 h3 h4 => ?_,
    fun raw v h => ?_⟩
  · simp [deobfuscate, h]
  · simp [deobfuscate, h]
  · simp [deobfuscate, h1, h2]
  · simp [deobfuscate, h1, h2, h3]
  · simp [deobfuscate, h1, h2, h3, h4]
  · unfold deobfuscate at h
    cases hp : parse_string_array raw with
    | none => rw [hp] at h; cases h
    | some arr =>
      rw [hp] at h
      cases arr with
      | nil => cases h
      | cons a rest =>
        simp only [Option.bind_eq_bind, Option.some_bind, List.head?_cons] at h
        cases h3 : safe_b64_decode (strip_markers (rot13 a)) with
        | none => rw [h3] at h; cases h
        | some s3 =>
          rw [h3] at h
          simp only [Option.some_bind] at h
          cases h6 : safe_b64_decode ((shift_chars s3 3).reverse) with
          | none => rw [h6] at h; cases h
          | some s6 =>
            rw [h6] at h
            simp only [Option.some_bind] at h
            exact ⟨a, rest, s3, s6, rfl, h3, h6, h⟩

/-- Witness for C1's amended theorem: every abort conjunct exercised at a
concrete input, plus a successful full decode. -/
theorem C1_deobfuscate_abort_amended_witness :
    deobfuscate (strLit "[") = none ∧
    deobfuscate (strLit "[]") = none ∧
    deobfuscate (strLit "[\"N\"]") = none ∧
    deobfuscate (strLit "[\"EN==\"]") = none ∧
    deobfuscate (strLit "[\"DRORnN==\"]") = none ∧
    (∃ (a : Str) (rest : List Str) (s3 s6 : Str),
      parse_string_array (strLit "[\"DROHHD==\"]") = some (a :: rest) ∧
      safe_b64_decode (strip_markers (rot13 a)) = some s3 ∧
      safe_b64_decode ((shift_chars s3 3).reverse) = some s6 ∧
      json_from_str s6 = some (.num [53])) :=
  ⟨C1_deobfuscate_abort_amended.1 _ rfl,
   C1_deobfuscate_abort_amended.2.1 _ rfl,
   C1_deobfuscate_abort_amended.2.2.1 _ (strLit "N") [] (by rfl) (by rfl),
   C1_deobfuscate_abort_amended.2.2.2.1 _ (strLit "EN==") [] (strLit "D") (by rfl) (by rfl)
     (by rfl),
   C1_deobfuscate_abort_amended.2.2.2.2.1 _ (strLit "DRORnN==") [] (strLit "@@Dh")
     (strLit "x") (by rfl) (by rfl) (by rfl) (by rfl),
   C1_deobfuscate_abort_amended.2.2.2.2.2 (strLit "[\"DROHHD==\"]") (.num [53]) (by rfl)⟩

/-- C2: in the block scan, a decoded candidate matching a bait pattern never
terminates the scan — the first non-bait candidate is returned even when bait
candidates (or undecodable blocks) precede it; a successful scan is the
result of `extract_stream_url`; and when the scan of every JSON block comes
up empty, the raw-regex `.mp4`/`.m3u8` fallback is consulted (its match kept
only if not bait). -/
theorem C2_bait_scan :
    (∀ (bs1 bs2 : List Str) (b u : Str),
       (∀ b' ∈ bs1, ∀ u', candidate_of_block b' = some u' → is_bait u' = true) →
       candidate_of_block b = some u → is_bait u = false →
       process_blocks (bs1 ++ b :: bs2) = some u) ∧
    (∀ (html u : Str), process_blocks (find_json_blocks html) = some u →
       extract_stream_url html = some u) ∧
    (∀ html : Str, process_blocks (find_json_blocks html) = none →
       extract_stream_url html =
         match find_media_url html with
         | some u => if is_bait u then none else some u
         | none => none) := by
  refine ⟨fun bs1 bs2 b u h1 h2 h3 => ?_, fun html u h => ?_, fun html h => ?_⟩
  · induction bs1 with
    | nil =>
      simp only [List.nil_append]
      unfold process_blocks
      rw [h2]
      simp [h3]
    | cons b' bs1' ih =>
      have hb' := h1 b' (List.mem_cons_self b' bs1')
      have ih' := ih (fun x hx u' hu' => h1 x (List.mem_cons_of_mem b' hx) u' hu')
      rw [List.cons_append]
      unfold process_blocks
      cases hc : candidate_of_block b' with
      | none => exact ih'
      | some u' =>
        simp [hb' u' hc, ih']
  · unfold extract_stream_url
    rw [h]
  · unfold extract_stream_url
    rw [h]

set_option maxRecDepth 4000 in
/-- Witness for C2: on the concrete page `html_w` the scanner finds two
blocks, the first decodes to a bait URL, the second to a genuine one, and
`extract_stream_url` returns the second. -/
theorem C2_bait_scan_witness :
    find_json_blocks html_w = [block_bait, block_good] ∧
    candidate_of_block block_bait = some bait_url ∧
    is_bait bait_url = true ∧
    candidate_of_block block_good = some good_url ∧
    is_bait good_url = false ∧
    extract_stream_url html_w = some good_url := by
  refine ⟨by rfl, by rfl, by rfl, by rfl, by rfl, ?_⟩
  have hblocks : process_blocks (find_json_blocks html_w) = some good_url := by
    rw [show find_json_blocks html_w = [block_bait] ++ (block_good :: []) from by rfl]
    refine C2_bait_scan.1 [block_bait] [] block_good good_url ?_ (by rfl) (by rfl)
    intro b' hb' u' hu'
    have hb : b' = block_bait := by simpa using hb'
    subst hb
    have : u' = bait_url := by
      rw [show candidate_of_block block_bait = some bait_url from by rfl] at hu'
      exact (Option.some.inj hu').symm
    subst this
    rfl
  exact C2_bait_scan.2.1 html_w good_url hblocks

theorem getLastD_append (l1 l2 : List StreamError) (d : StreamError) :
    (l1 ++ l2).getLastD d = l2.getLastD (l1.getLastD d) := by
  induction l1 generalizing d with
  | nil => rfl
  | cons e l1' ih =>
    rw [List.cons_append, List.getLastD_cons, List.getLastD_cons, ih]

theorem try_resolvers_cons (r : ResolverM) (rs : List ResolverM) (url : Str)
    (acc : StreamError) :
    try_resolvers (r :: rs) url acc =
      if r.can_handle url = true then
        match r.resolve url with
        | .ok s => (some s, acc)
        | .error e => try_resolvers rs url e
      else try_resolvers rs url acc := rfl

theorem providers_loop_cons_err (e : StreamError) (ps : List (Except StreamError Str))
    (rs : List ResolverM) (acc : StreamError) :
    providers_loop (.error e :: ps) rs acc = providers_loop ps rs e := rfl

theorem providers_loop_cons_ok (url : Str) (ps : List (Except StreamError Str))
    (rs : List ResolverM) (acc : StreamError) :
    providers_loop (.ok url :: ps) rs acc =
      match try_resolvers rs url acc with
      | (some s, _) => .ok s
      | (none, acc') => providers_loop ps rs acc' := rfl

theorem try_resolvers_all_fail (rs : List ResolverM) (url : Str) (acc : StreamError)
    (h : ∀ r ∈ rs, r.can_handle url = true → ∃ e, r.resolve url = .error e) :
    try_resolvers rs url acc = (none, (resolver_errors rs url).getLastD acc) := by
  induction rs generalizing acc with
  | nil => rfl
  | cons r rs' ih =>
    have hr := h r (List.mem_cons_self r rs')
    have ih' := fun a => ih a (fun x hx => h x (List.mem_cons_of_mem r hx))
    by_cases hch : r.can_handle url = true
    · obtain ⟨e, he⟩ := hr hch
      have step : try_resolvers (r :: rs') url acc = try_resolvers rs' url e := by
        rw [try_resolvers_cons, if_pos hch, he]
      have hre : resolver_errors (r :: rs') url = e :: resolver_errors rs' url := by
        unfold resolver_errors
        rw [List.filter_cons]
        simp [hch, he]
      rw [step, ih' e, hre, List.getLastD_cons]
    · have step : try_resolvers (r :: rs') url acc = try_resolvers rs' url acc := by
        rw [try_resolvers_cons, if_neg hch]
      have hre : resolver_errors (r :: rs') url = resolver_errors rs' url := by
        unfold resolver_errors
        rw [List.filter_cons]
        simp [hch]
      rw [step, ih' acc, hre]

theorem providers_loop_append_fail (ps1 ps2 : List (Except StreamError Str))
    (rs : List ResolverM) (acc : StreamError) (h : no_success ps1 rs) :
    providers_loop (ps1 ++ ps2) rs acc
      = providers_loop ps2 rs ((traversal_errors ps1 rs).getLastD acc) := by
  induction ps1 generalizing acc with
  | nil => rfl
  | cons p ps1' ih =>
    have ih' := fun a => ih a (fun x hx => h x (List.mem_cons_of_mem p hx))
    cases p with
    | error e =>
      have htr : traversal_errors (Except.error e :: ps1') rs
          = e :: traversal_errors ps1' rs := by
        unfold traversal_errors
        rw [List.flatMap_cons]
        rfl
      have step : providers_loop ((Except.error e :: ps1') ++ ps2) rs acc
          = providers_loop (ps1' ++ ps2) rs e := by
        rw [List.cons_append, providers_loop_cons_err]
      rw [step, ih' e, htr, List.getLastD_cons]
    | ok url =>
      have hres : ∀ r ∈ rs, r.can_handle url = true → ∃ e, r.resolve url = .error e :=
        h (.ok url) (List.mem_cons_self _ ps1') url rfl
      have htr : traversal_errors (Except.ok url :: ps1') rs
          = resolver_errors rs url ++ traversal_errors ps1' rs := by
        unfold traversal_errors
        rw [List.flatMap_cons]
      have step : providers_loop ((Except.ok url :: ps1') ++ ps2) rs acc
          = providers_loop (ps1' ++ ps2) rs ((resolver_errors rs url).getLastD acc) := by
        rw [List.cons_append, providers_loop_cons_ok,
          try_resolvers_all_fail rs url acc hres]
      rw [step, ih' _, htr, getLastD_append]

theorem try_resolvers_first_success (rs1 rs2 : List ResolverM) (r : ResolverM) (url : Str)
    (acc : StreamError)
    (h1 : ∀ r' ∈ rs1, r'.can_handle url = true → ∃ e, r'.resolve url = .error e)
    (h2 : r.can_handle url = true) (s : Str) (h3 : r.resolve url = .ok s) :
    (try_resolvers (rs1 ++ r :: rs2) url acc).1 = some s := by
  induction rs1 generalizing acc with
  | nil =>
    rw [List.nil_append, try_resolvers_cons, if_pos h2, h3]
  | cons r' rs1' ih =>
    have hr' := h1 r' (List.mem_cons_self r' rs1')
    have ih' := fun a => ih a (fun x hx => h1 x (List.mem_cons_of_mem r' hx))
    by_cases hch : r'.can_handle url = true
    · obtain ⟨e, he⟩ := hr' hch
      have step : try_resolvers ((r' :: rs1') ++ r :: rs2) url acc
          = try_resolvers (rs1' ++ r :: rs2) url e := by
        rw [List.cons_append, try_resolvers_cons, if_pos hch, he]
      rw [step]
      exact ih' e
    · have step : try_resolvers ((r' :: rs1') ++ r :: rs2) url acc
          = try_resolvers (rs1' ++ r :: rs2) url acc := by
        rw [List.cons_append, try_resolvers_cons, if_neg hch]
      rw [step]
      exact ih' acc

/-- C5: when every provider/resolver combination fails, the resolution
service returns the *last* error encountered over the whole traversal (with
the initial `NotFound("No providers available")` as default); when some
combination succeeds, it returns the first end-to-end success in
registration order — every earlier provider and every earlier matching
resolver having failed. -/
theorem C5_last_error_first_success :
    (∀ (ps : List (Except StreamError Str)) (rs : List ResolverM), no_success ps rs →
       get_stream_url ps rs =
         .error ((traversal_errors ps rs).getLastD
           (.notFound (strLit "No providers available")))) ∧
    (∀ (ps1 ps2 : List (Except StreamError Str)) (rs1 rs2 : List ResolverM)
       (r : ResolverM) (url s : Str),
       no_success ps1 (rs1 ++ r :: rs2) →
       (∀ r' ∈ rs1, r'.can_handle url = true → ∃ e, r'.resolve url = .error e) →
       r.can_handle url = true → r.resolve url = .ok s →
       get_stream_url (ps1 ++ .ok url :: ps2) (rs1 ++ r :: rs2) = .ok s) := by
  constructor
  · intro ps rs h
    unfold get_stream_url
    have := providers_loop_append_fail ps [] rs (.notFound (strLit "No providers available")) h
    rw [List.append_nil] at this
    rw [this]
    rfl
  · intro ps1 ps2 rs1 rs2 r url s hps1 hrs1 hch hok
    unfold get_stream_url
    rw [providers_loop_append_fail ps1 (Except.ok url :: ps2) (rs1 ++ r :: rs2) _ hps1,
      providers_loop_cons_ok]
    cases htr : try_resolvers (rs1 ++ r :: rs2) url
        ((traversal_errors ps1 (rs1 ++ r :: rs2)).getLastD
          (.notFound (strLit "No providers available"))) with
    | mk o acc2 =>
      have ho : o = some s := by
        have hfs := try_resolvers_first_success rs1 rs2 r url
          ((traversal_errors ps1 (rs1 ++ r :: rs2)).getLastD
            (.notFound (strLit "No providers available"))) hrs1 hch s hok
        rw [htr] at hfs
        exact hfs
      subst ho
      rfl

/-- Witness for C5: with a failing provider followed by a provider whose
page URL only a failing resolver handles, the last error (the resolver's)
comes back; with a succeeding resolver appended after the failing one, the
first end-to-end success comes back. -/
theorem C5_last_error_first_success_witness :
    get_stream_url
        [.error (.network (strLit "p1 down")), .ok (strLit "https://voe.sx/e/x")]
        [⟨fun _ => true, fun _ => .error (.parse (strLit "bad json"))⟩]
      = .error (.parse (strLit "bad json")) ∧
    get_stream_url
        ([.error (.network (strLit "p1 down"))] ++
          .ok (strLit "https://voe.sx/e/x") :: [.ok (strLit "unused")])
        ([⟨fun _ => true, fun _ => .error (.parse (strLit "bad json"))⟩] ++
          (⟨fun _ => true, fun _ => .ok (strLit "https://cdn.example.com/v.mp4")⟩ : ResolverM) ::
          [⟨fun _ => false, fun _ => .ok (strLit "never")⟩])
      = .ok (strLit "https://cdn.example.com/v.mp4") := by
  constructor
  · have hns : no_success
        [.error (.network (strLit "p1 down")), .ok (strLit "https://voe.sx/e/x")]
        [⟨fun _ => true, fun _ => .error (.parse (strLit "bad json"))⟩] := by
      intro p hp url hpu r hr hch
      simp only [List.mem_cons, List.not_mem_nil, or_false] at hp
      rcases hp with h | h
      · subst h; cases hpu
      · subst h
        simp only [List.mem_cons, List.not_mem_nil, or_false] at hr
        subst hr
        exact ⟨.parse (strLit "bad json"), rfl⟩
    rw [C5_last_error_first_success.1 _ _ hns]
    rfl
  · have hns : no_success [.error (.network (strLit "p1 down"))]
        ([⟨fun _ => true, fun _ => .error (.parse (strLit "bad json"))⟩] ++
          (⟨fun _ => true, fun _ => .ok (strLit "https://cdn.example.com/v.mp4")⟩ : ResolverM) ::
          [⟨fun _ => false, fun _ => .ok (strLit "never")⟩]) := by
      intro p hp url hpu r hr hch
      simp only [List.mem_cons, List.not_mem_nil, or_false] at hp
      subst hp
      cases hpu
    refine C5_last_error_first_success.2 [.error (.network (strLit "p1 down"))]
      [.ok (strLit "unused")]
      [⟨fun _ => true, fun _ => .error (.parse (strLit "bad json"))⟩]
      [⟨fun _ => false, fun _ => .ok (strLit "never")⟩]
      ⟨fun _ => true, fun _ => .ok (strLit "https://cdn.example.com/v.mp4")⟩
      (strLit "https://voe.sx/e/x") (strLit "https://cdn.example.com/v.mp4")
      hns ?_ rfl rfl
    intro r' hr' hch
    simp only [List.mem_cons, List.not_mem_nil, or_false] at hr'
    subst hr'
    exact ⟨.parse (strLit "bad json"), rfl⟩

theorem vp_wf_stop (s : VideoPlayerM) (hs : s.wf) : s.stop.wf := by
  constructor
  · intro h hh
    simp [VideoPlayerM.stop] at hh
  · intro _
    cases hd : s.decoder_thread with
    | none =>
      obtain ⟨h1, h2⟩ := hs.2 hd
      simp [VideoPlayerM.stop, hd, h1, h2]
    | some h0 =>
      obtain ⟨h1, h2, _⟩ := hs.1 h0 hd
      simp [VideoPlayerM.stop, hd, h1, h2]

theorem vp_play_fields (s : VideoPlayerM) (hs : s.wf) (id : Nat) (url : Str) :
    (s.play id url).live_threads = [s.next_id] ∧ (s.play id url).live_chans = [s.next_id] ∧
    (s.play id url).decoder_thread = some s.next_id ∧
    (s.play id url).next_id = s.next_id + 1 := by
  have hstopd : s.stop.decoder_thread = none := rfl
  obtain ⟨hl, hc⟩ := (vp_wf_stop s hs).2 hstopd
  refine ⟨?_, ?_, rfl, rfl⟩
  · simp only [VideoPlayerM.play, hl]
    rfl
  · simp only [VideoPlayerM.play, hc]
    rfl

theorem vp_wf_play (s : VideoPlayerM) (hs : s.wf) (id : Nat) (url : Str) :
    (s.play id url).wf := by
  obtain ⟨hl, hc, hd, hn⟩ := vp_play_fields s hs id url
  constructor
  · intro h hh
    rw [hd] at hh
    injection hh with hh
    subst hh
    rw [hl, hc, hn]
    exact ⟨rfl, rfl, Nat.lt_succ_self _⟩
  · intro h0
    rw [hd] at h0
    cases h0

theorem vp_wf_step (s : VideoPlayerM) (hs : s.wf) (op : PlayerOp) : (s.step op).wf := by
  cases op with
  | play id url => exact vp_wf_play s hs id url
  | stop => exact vp_wf_stop s hs
  | pause => exact hs
  | resume => exact hs
  | toggleMute => exact hs
  | renderFrame =>
    unfold VideoPlayerM.step VideoPlayerM.render_frame
    cases hf : s.frame_receiver with
    | none => exact hs
    | some q =>
      cases q with
      | nil => exact hs
      | cons f rest => exact hs

theorem vp_wf_run (s : VideoPlayerM) (hs : s.wf) (ops : List PlayerOp) : (s.run ops).wf := by
  induction ops generalizing s with
  | nil => exact hs
  | cons op ops' ih => exact ih (s.step op) (vp_wf_step s hs op)

theorem vp_wf_new : VideoPlayerM.new.wf := by
  constructor
  · intro h hh
    cases hh
  · intro _
    exact ⟨rfl, rfl⟩

theorem vp_wf_len (s : VideoPlayerM) (hs : s.wf) :
    s.live_threads.length ≤ 1 ∧ s.live_chans.length ≤ 1 := by
  cases hd : s.decoder_thread with
  | some h0 =>
    obtain ⟨h1, h2, _⟩ := hs.1 h0 hd
    rw [h1, h2]
    exact ⟨Nat.le_refl _, Nat.le_refl _⟩
  | none =>
    obtain ⟨h1, h2⟩ := hs.2 hd
    rw [h1, h2]
    exact ⟨Nat.zero_le _, Nat.zero_le _⟩

theorem mp_wf_stop (s : MoviePlayerM) (hs : s.wf) : s.stop.wf := by
  constructor
  · intro h hh
    simp [MoviePlayerM.stop] at hh
  · intro _
    cases hd : s.decoder_thread with
    | none =>
      obtain ⟨h1, h2⟩ := hs.2 hd
      simp [MoviePlayerM.stop, hd, h1, h2]
    | some h0 =>
      obtain ⟨h1, h2, _⟩ := hs.1 h0 hd
      simp [MoviePlayerM.stop, hd, h1, h2]

theorem mp_play_fields (s : MoviePlayerM) (hs : s.wf) (id : Nat) (url : Str) :
    (s.play id url).live_threads = [s.next_id] ∧ (s.play id url).live_chans = [s.next_id] ∧
    (s.play id url).decoder_thread = some s.next_id ∧
    (s.play id url).next_id = s.next_id + 1 := by
  have hstopd : s.stop.decoder_thread = none := rfl
  obtain ⟨hl, hc⟩ := (mp_wf_stop s hs).2 hstopd
  refine ⟨?_, ?_, rfl, rfl⟩
  · simp only [MoviePlayerM.play, hl]
    rfl
  · simp only [MoviePlayerM.play, hc]
    rfl

theorem mp_wf_play (s : MoviePlayerM) (hs : s.wf) (id : Nat) (url : Str) :
    (s.play id url).wf := by
  obtain ⟨hl, hc, hd, hn⟩ := mp_play_fields s hs id url
  constructor
  · intro h hh
    rw [hd] at hh
    injection hh with hh
    subst hh
    rw [hl, hc, hn]
    exact ⟨rfl, rfl, Nat.lt_succ_self _⟩
  · intro h0
    rw [hd] at h0
    cases h0

theorem mp_wf_step (s : MoviePlayerM) (hs : s.wf) (op : PlayerOp) : (s.step op).wf := by
  cases op with
  | play id url => exact mp_wf_play s hs id url
  | stop => exact mp_wf_stop s hs
  | pause => exact hs
  | resume => exact hs
  | toggleMute => exact hs
  | renderFrame =>
    unfold MoviePlayerM.step MoviePlayerM.get_new_frame
    cases hf : s.frame_receiver with
    | none => exact hs
    | some q =>
      cases q with
      | nil => exact hs
      | cons f rest => exact hs

theorem mp_wf_run (s : MoviePlayerM) (hs : s.wf) (ops : List PlayerOp) : (s.run ops).wf := by
  induction ops generalizing s with
  | nil => exact hs
  | cons op ops' ih => exact ih (s.step op) (mp_wf_step s hs op)

theorem mp_wf_new (store : List (Nat × ℚ)) : (MoviePlayerM.new store).wf := by
  constructor
  · intro h hh
    cases hh
  · intro _
    exact ⟨rfl, rfl⟩

theorem mp_wf_len (s : MoviePlayerM) (hs : s.wf) :
    s.live_threads.length ≤ 1 ∧ s.live_chans.length ≤ 1 := by
  cases hd : s.decoder_thread with
  | some h0 =>
    obtain ⟨h1, h2, _⟩ := hs.1 h0 hd
    rw [h1, h2]
    exact ⟨Nat.le_refl _, Nat.le_refl _⟩
  | none =>
    obtain ⟨h1, h2⟩ := hs.2 hd
    rw [h1, h2]
    exact ⟨Nat.zero_le _, Nat.zero_le _⟩

/-- C8: after any sequence of facade calls from a fresh instance, either
player holds at most one live worker thread and at most one channel pair;
and `play` on an instance with a live worker first tears it down — the old
worker's handle is gone from the live set, which afterwards holds exactly
the one fresh worker. -/
theorem C8_single_worker :
    (∀ ops : List PlayerOp,
       (VideoPlayerM.new.run ops).live_threads.length ≤ 1 ∧
       (VideoPlayerM.new.run ops).live_chans.length ≤ 1) ∧
    (∀ (store : List (Nat × ℚ)) (ops : List PlayerOp),
       ((MoviePlayerM.new store).run ops).live_threads.length ≤ 1 ∧
       ((MoviePlayerM.new store).run ops).live_chans.length ≤ 1) ∧
    (∀ (s : VideoPlayerM) (h id : Nat) (url : Str), s.wf → s.decoder_thread = some h →
       (s.play id url).live_threads = [s.next_id] ∧
       (s.play id url).live_chans = [s.next_id] ∧ h ≠ s.next_id) ∧
    (∀ (s : MoviePlayerM) (h id : Nat) (url : Str), s.wf → s.decoder_thread = some h →
       (s.play id url).live_threads = [s.next_id] ∧
       (s.play id url).live_chans = [s.next_id] ∧ h ≠ s.next_id) := by
  refine ⟨fun ops => ?_, fun store ops => ?_,
    fun s h id url hs hd => ?_, fun s h id url hs hd => ?_⟩
  · exact vp_wf_len _ (vp_wf_run _ vp_wf_new ops)
  · exact mp_wf_len _ (mp_wf_run _ (mp_wf_new store) ops)
  · obtain ⟨hl, hc, _, _⟩ := vp_play_fields s hs id url
    obtain ⟨_, _, hlt⟩ := hs.1 h hd
    exact ⟨hl, hc, Nat.ne_of_lt hlt⟩
  · obtain ⟨hl, hc, _, _⟩ := mp_play_fields s hs id url
    obtain ⟨_, _, hlt⟩ := hs.1 h hd
    exact ⟨hl, hc, Nat.ne_of_lt hlt⟩

/-- Witness for C8: exercised on a fresh video player after two `play`
calls and on a concrete state with a live worker. -/
theorem C8_single_worker_witness :
    (VideoPlayerM.new.run [.play 1 [], .play 2 [], .pause]).live_threads.length ≤ 1 ∧
    ((MoviePlayerM.new []).run [.play 1 [], .stop, .play 2 []]).live_chans.length ≤ 1 ∧
    ((VideoPlayerM.new.play 1 []).play 2 []).live_threads
      = [(VideoPlayerM.new.play 1 []).next_id] :=
  ⟨(C8_single_worker.1 [.play 1 [], .play 2 [], .pause]).1,
   (C8_single_worker.2.1 [] [.play 1 [], .stop, .play 2 []]).2,
   (C8_single_worker.2.2.1 (VideoPlayerM.new.play 1 []) 0 2 []
      (vp_wf_play _ vp_wf_new 1 []) rfl).1⟩

/-- C9 counterexample: on the movie-player facade the frame-pull operation
returns nothing even though playback has started (receiver present) and a
frame has been received and is still held — `get_new_frame` only reports
newly arrived frames and yields `none` on an empty channel. -/
theorem C9_get_new_frame_counterexample :
    mp_after_frame.frame_receiver.isSome = true ∧
    mp_after_frame.current_frame.isSome = true ∧
    (mp_after_frame.get_new_frame).1 = none :=
  ⟨rfl, rfl, rfl⟩

/-- C9 (amended): `VideoPlayer::render_frame` returns the next pending
frame in FIFO arrival order if one is queued (storing it as the held frame),
otherwise the held frame — so it never returns nothing once a frame is held
and the receiver exists.  `MoviePlayer::get_new_frame`, however, returns
only a newly arrived frame and returns nothing on an empty channel; the held
frame is served separately by `get_current_frame`. -/
theorem C9_frame_pull_amended :
    (∀ (s : VideoPlayerM) (f : FrameData) (rest : List FrameData),
       s.frame_receiver = some (f :: rest) →
       (s.render_frame).1 = some f ∧ (s.render_frame).2.current_frame = some f) ∧
    (∀ s : VideoPlayerM, s.frame_receiver = some [] → (s.render_frame).1 = s.current_frame) ∧
    (∀ (s : VideoPlayerM) (q : List FrameData) (f : FrameData),
       s.frame_receiver = some q → s.current_frame = some f →
       (s.render_frame).1.isSome = true) ∧
    (∀ (s : MoviePlayerM) (f : FrameData) (rest : List FrameData),
       s.frame_receiver = some (f :: rest) →
       (s.get_new_frame).1 = some f ∧ (s.get_new_frame).2.current_frame = some f) ∧
    (∀ s : MoviePlayerM, s.frame_receiver = some [] →
       (s.get_new_frame).1 = none ∧ s.get_current_frame = s.current_frame) := by
  refine ⟨fun s f rest h => ?_, fun s h => ?_, fun s q f hq hf => ?_,
    fun s f rest h => ?_, fun s h => ?_⟩
  · unfold VideoPlayerM.render_frame
    rw [h]
    exact ⟨rfl, rfl⟩
  · unfold VideoPlayerM.render_frame
    rw [h]
  · unfold VideoPlayerM.render_frame
    rw [hq]
    cases q with
    | nil => simp [hf]
    | cons g rest => rfl
  · unfold MoviePlayerM.get_new_frame
    rw [h]
    exact ⟨rfl, rfl⟩
  · unfold MoviePlayerM.get_new_frame
    rw [h]
    exact ⟨rfl, rfl⟩

/-- Witness for C9's amended theorem at concrete player states. -/
theorem C9_frame_pull_amended_witness :
    (({ VideoPlayerM.new with
        frame_receiver := some [⟨1, 1, [9, 9, 9, 255]⟩] } : VideoPlayerM).render_frame).1
      = some ⟨1, 1, [9, 9, 9, 255]⟩ ∧
    (({ VideoPlayerM.new with
        frame_receiver := some [], current_frame := some ⟨1, 1, [7, 7, 7, 255]⟩ }
        : VideoPlayerM).render_frame).1 = some ⟨1, 1, [7, 7, 7, 255]⟩ ∧
    (({ VideoPlayerM.new with
        frame_receiver := some [], current_frame := some ⟨1, 1, [7, 7, 7, 255]⟩ }
        : VideoPlayerM).render_frame).1.isSome = true ∧
    (mp_after_frame.get_current_frame = mp_after_frame.current_frame) :=
  ⟨(C9_frame_pull_amended.1 _ ⟨1, 1, [9, 9, 9, 255]⟩ [] rfl).1,
   C9_frame_pull_amended.2.1 _ rfl,
   C9_frame_pull_amended.2.2.1 _ [] ⟨1, 1, [7, 7, 7, 255]⟩ rfl rfl,
   (C9_frame_pull_amended.2.2.2.2 mp_after_frame rfl).2⟩
